import Mathlib

/-!
Verification development for the movie-data aggregation core
(MovieDataProcessor: movie_type, actor_count, actor_distributions,
releases, ages) against its natural-language specification.

The Python code is shallowly embedded: pandas tables become lists of
records, cell values that may be null become Option, Python exceptions
become an explicit error type threaded through Except, and the uses of
ast.literal_eval on genre cells are modelled by an executable parser for
the literal forms that occur in genre fields (dicts of quoted strings,
lists of atoms, numbers, quoted strings, True/False/None; string escape
sequences and nested containers do not occur in the data and are not
modelled).
-/

/-- Kinds of Python exceptions raised by the aggregation routines.
SyntaxError and ValueError raised by ast.literal_eval are always caught
together by the code under study, so they are merged into the parse
failure case of the literal parser rather than appearing here. -/
inductive PyErr where
  | valueError (msg : String)
  | keyError (msg : String)
  | attributeError (msg : String)
deriving DecidableEq

/-- Python values passed as arguments to the routines: the embedding
distinguishes int, float, str and None so that isinstance checks in the
code can be modelled faithfully. -/
inductive PyVal where
  | int (n : Int)
  | float (q : ℚ)
  | str (s : String)
  | pynone
deriving DecidableEq

/-- Result of a successful ast.literal_eval on a genre cell string:
either a dict (modelled as its key/value pairs in encoded order; genre
dicts map strings to strings) or some non-dict literal (list, number,
bare string, True/False/None), whose precise value the code never uses
before failing on .values(). -/
inductive PyLit where
  | dict (d : List (String × String))
  | nonDict
deriving DecidableEq

/-- Skip spaces, tabs and newlines, as Python source whitespace. -/
def skipWs : List Char → List Char
  | [] => []
  | c :: cs => if c = ' ' ∨ c = '\t' ∨ c = '\n' then skipWs cs else c :: cs

/-- Predicate for Python string-literal quote characters. -/
def quoteChar (c : Char) : Bool := c = '"' ∨ c = '\x27'

/-- Scan the body of a string literal up to the closing quote q,
returning the contents and the remainder.  Escape sequences are not
modelled (they do not occur in genre data). -/
def scanStr (q : Char) : List Char → Option (List Char × List Char)
  | [] => none
  | c :: cs =>
    if c = q then some ([], cs)
    else match scanStr q cs with
      | some (s, rest) => some (c :: s, rest)
      | none => none

/-- Parse a quoted Python string literal at the head of the input. -/
def parseStrLit (l : List Char) : Option (String × List Char) :=
  match l with
  | [] => none
  | c :: cs =>
    if quoteChar c then (scanStr c cs).map (fun p => (String.mk p.1, p.2)) else none

/-- Consume a Python int/float literal (optional minus sign, digits,
optional fractional part); returns the remaining input. -/
def parseNumber (l : List Char) : Option (List Char) :=
  let l1 := match l with
    | '-' :: rest => rest
    | _ => l
  let ds := l1.takeWhile Char.isDigit
  let r1 := l1.dropWhile Char.isDigit
  if ds.isEmpty then none
  else match r1 with
    | '.' :: r2 => some (r2.dropWhile Char.isDigit)
    | _ => some r1

/-- Consume one of the literal keywords True, False, None. -/
def parseKeyword (l : List Char) : Option (List Char) :=
  if l.take 4 = "True".toList then some (l.drop 4)
  else if l.take 5 = "False".toList then some (l.drop 5)
  else if l.take 4 = "None".toList then some (l.drop 4)
  else none

/-- Consume one atomic literal: quoted string, number or keyword. -/
def parseAtom (l : List Char) : Option (List Char) :=
  match parseStrLit l with
  | some p => some p.2
  | none =>
    match parseNumber l with
    | some r => some r
    | none => parseKeyword l

/-- Consume the items of a list literal after the opening bracket, up to
and including the closing bracket.  Fuel bounds the recursion. -/
def parseListBody : Nat → List Char → Option (List Char)
  | 0, _ => none
  | fuel + 1, l =>
    let l1 := skipWs l
    match l1 with
    | ']' :: rest => some rest
    | _ =>
      match parseAtom l1 with
      | none => none
      | some r =>
        match skipWs r with
        | ',' :: r2 => parseListBody fuel r2
        | ']' :: r2 => some r2
        | _ => none

/-- Consume the entries of a dict literal after the opening brace, up to
and including the closing brace, accumulating the key/value pairs in
encoded order.  Fuel bounds the recursion. -/
def parseDictBody : Nat → List Char → List (String × String) →
    Option (List (String × String) × List Char)
  | 0, _, _ => none
  | fuel + 1, l, acc =>
    let l1 := skipWs l
    match l1 with
    | '\x7d' :: rest => some (acc, rest)
    | _ =>
      match parseStrLit l1 with
      | none => none
      | some (k, r) =>
        match skipWs r with
        | ':' :: r2 =>
          match parseStrLit (skipWs r2) with
          | none => none
          | some (v, r3) =>
            match skipWs r3 with
            | ',' :: r4 => parseDictBody fuel r4 (acc ++ [(k, v)])
            | '\x7d' :: r4 => some (acc ++ [(k, v)], r4)
            | _ => none
        | _ => none

/-- Model of ast.literal_eval as used on genre cells: returns the parsed
dict, evidence that the literal is a non-dict, or none when parsing
fails (the SyntaxError/ValueError case, always caught by the callers in
the code under study). -/
def pyLiteralEval (s : String) : Option PyLit :=
  let l := skipWs s.toList
  match l with
  | '\x7b' :: rest =>
    match parseDictBody (rest.length + 1) rest [] with
    | some (d, r) => if (skipWs r).isEmpty then some (.dict d) else none
    | none => none
  | '[' :: rest =>
    match parseListBody (rest.length + 1) rest with
    | some r => if (skipWs r).isEmpty then some .nonDict else none
    | none => none
  | _ =>
    match parseAtom l with
    | some r => if (skipWs r).isEmpty then some .nonDict else none
    | none => none

/-- Distinct elements of a list in order of first occurrence; this is the
order in which a pandas hash-based unique/value_counts enumerates keys. -/
def firstOccurs {α : Type} [DecidableEq α] : List α → List α
  | [] => []
  | x :: xs => x :: (firstOccurs xs).filter (fun y => y ≠ x)

instance {ε α : Type} [DecidableEq ε] [DecidableEq α] : DecidableEq (Except ε α) := fun x y =>
  match x, y with
  | .ok a, .ok b => decidable_of_iff (a = b) (by simp)
  | .error a, .error b => decidable_of_iff (a = b) (by simp)
  | .ok _, .error _ => isFalse (by simp)
  | .error _, .ok _ => isFalse (by simp)

/-- Content of a Genres cell of the movie table: in the loaded dataset it
is a string, while the unit tests inject rows whose cell is already a
Python dict; the code branches on isinstance(row, str) accordingly. -/
inductive GenreCell where
  | str (s : String)
  | dict (d : List (String × String))
deriving DecidableEq

/-- Message of the AttributeError raised when .values() is called on the
result of literal-evaluating a string that encodes a non-dict. -/
def attrValuesMsg : String := "object has no attribute \x27values\x27"

/-- Per-row genre decoding as performed inside movie_type: a dict cell
contributes its values in encoded order; a string cell is passed to
ast.literal_eval, where SyntaxError and ValueError are caught (the row
is skipped, contributing nothing) but a successfully parsed non-dict
makes the subsequent .values() call raise an uncaught AttributeError. -/
def extractGenreValues : GenreCell → Except PyErr (List String)
  | .dict d => .ok (d.map Prod.snd)
  | .str s =>
    match pyLiteralEval s with
    | none => .ok []
    | some (.dict d) => .ok (d.map Prod.snd)
    | some .nonDict => .error (.attributeError attrValuesMsg)

/-- Record of the movie table restricted to the fields the aggregation
routines read; None cells model NaN. -/
structure MovieRow where
  releaseDate : Option String
  genres : Option GenreCell
deriving DecidableEq

/-- Movie table: its rows plus flags recording whether the Release_Date
and Genres columns are present (the schema-drift guards test these). -/
structure MovieTable where
  hasReleaseDate : Bool := true
  hasGenres : Bool := true
  rows : List MovieRow
deriving DecidableEq

/-- Record of the character table restricted to the fields the
aggregation routines read; heights are kept as raw cell text. -/
structure CharRow where
  movieId : String
  gender : Option String
  height : Option String
  birthdate : Option String
deriving DecidableEq

/-- Character table with schema-presence flags for the guarded columns. -/
structure CharTable where
  hasGender : Bool := true
  hasHeight : Bool := true
  hasBirthdate : Bool := true
  rows : List CharRow
deriving DecidableEq

/-- Accumulation of all decoded genre names over the non-null Genres
cells in table order, propagating the first uncaught exception, exactly
as the decoding loop of movie_type does. -/
def decodeAllGenres (t : MovieTable) : Except PyErr (List String) :=
  ((t.rows.filterMap MovieRow.genres).mapM extractGenreValues).map List.flatten

/-- Ordering used to model pandas value_counts on the genre multiset:
entries are (first-occurrence index, name, count) and are sorted by
descending count with ties broken by ascending first-occurrence index,
which is the stable order value_counts produces. -/
def vcR : Nat × String × Nat → Nat × String × Nat → Prop :=
  fun a b => b.2.2 < a.2.2 ∨ (a.2.2 = b.2.2 ∧ a.1 ≤ b.1)

instance : DecidableRel vcR := fun a b => by
  unfold vcR
  exact inferInstance

instance : IsTotal (Nat × String × Nat) vcR := by
  constructor
  intro a b
  unfold vcR
  omega

instance : IsTrans (Nat × String × Nat) vcR := by
  constructor
  intro a b c h1 h2
  unfold vcR at h1 h2 ⊢
  omega

/-- Model of pandas Series.value_counts: pairs (name, count) for each
distinct name, sorted by descending count, ties in first-occurrence
order. -/
def value_counts (gs : List String) : List (String × Nat) :=
  (List.insertionSort vcR
    ((firstOccurs gs).enum.map (fun p => (p.1, p.2, gs.count p.2)))).map
    (fun x => (x.2.1, x.2.2))

/-- Model of a pandas groupby-size (equally, value_counts followed by
sort_index): pairs (key, count) for each distinct key, sorted ascending
by key. -/
def groupCountAsc {α : Type} [LinearOrder α] (l : List α) : List (α × Nat) :=
  (List.insertionSort (fun a b => a ≤ b) (firstOccurs l)).map (fun k => (k, l.count k))

/-- Message of the ValueError for a non-positive or non-integer N. -/
def msgNMustBe : String := "N must be a positive integer"

/-- Message of the KeyError for a missing Genres column. -/
def msgGenresMissing : String :=
  "Column \x27Genres\x27 not found in movie_metadata. Check dataset format."

/-- Message of the KeyError when N exceeds the distinct genre count. -/
def msgNotEnough : String := "N is larger than the available movie types"

/-- Embedding of MovieDataProcessor.movie_type: validate N, guard the
Genres column, decode all genres (possibly propagating an uncaught
AttributeError), count them, reject N beyond the distinct-genre count,
and return the first N rows of the descending count table. -/
def movie_type (t : MovieTable) (N : PyVal) : Except PyErr (List (String × Nat)) :=
  match N with
  | .int n =>
    if n < 1 then .error (.valueError msgNMustBe)
    else if t.hasGenres = false then .error (.keyError msgGenresMissing)
    else
      match decodeAllGenres t with
      | .error e => .error e
      | .ok gs =>
        let tc := value_counts gs
        if (tc.length : Int) < n then .error (.keyError msgNotEnough)
        else .ok (tc.take n.toNat)
  | _ => .error (.valueError msgNMustBe)

/-- Movie identifiers of the character table in row order. -/
def charMovieIds (t : CharTable) : List String := t.rows.map CharRow.movieId

/-- Lexicographic strict comparison of character lists by code point. -/
def strLtListB : List Char → List Char → Bool
  | [], [] => false
  | [], _ :: _ => true
  | _ :: _, [] => false
  | a :: as, b :: bs =>
    if a.toNat < b.toNat then true
    else if b.toNat < a.toNat then false
    else strLtListB as bs

/-- Lexicographic order on strings by code point, the order in which
pandas groupby enumerates string group keys. -/
def strLeB (a b : String) : Bool := !(strLtListB b.toList a.toList)

/-- Rows-per-movie sizes, one entry per distinct movie identifier, in
the ascending identifier order pandas groupby uses. -/
def actorCountsPerMovie (t : CharTable) : List Nat :=
  (List.insertionSort (fun a b => strLeB a b = true) (firstOccurs (charMovieIds t))).map
    (fun m => (charMovieIds t).count m)

/-- Embedding of MovieDataProcessor.actor_count: histogram of the
actors-per-movie counts, sorted ascending by the count value. -/
def actor_count (t : CharTable) : List (Nat × Nat) :=
  groupCountAsc (actorCountsPerMovie t)

/-- Numeric value of a run of decimal digit characters. -/
def digitsVal (l : List Char) : Nat :=
  l.foldl (fun a c => a * 10 + (c.toNat - 48)) 0

/-- Model of the height cleaning step: a cell text is kept only when it
fully matches the anchored pattern of digits optionally followed by a
dot and digits, in which case its decimal value is produced (the
subsequent astype(float) of the code). -/
def parseHeight (s : String) : Option ℚ :=
  let cs := s.toList
  let ds := cs.takeWhile Char.isDigit
  let rest := cs.dropWhile Char.isDigit
  if ds.isEmpty then none
  else
    match rest with
    | [] => some (mkRat (digitsVal ds) 1)
    | '.' :: fs =>
      if !fs.isEmpty && fs.all Char.isDigit
      then some (mkRat (digitsVal ds * 10 ^ fs.length + digitsVal fs) (10 ^ fs.length))
      else none
    | _ => none

/-- Parsed height of a character row, none when the cell is null or its
text does not match the numeric pattern. -/
def rowHeight (r : CharRow) : Option ℚ := r.height.bind parseHeight

/-- Rows surviving the height cleaning step, paired with their numeric
height, in table order. -/
def heightRows (t : CharTable) : List (CharRow × ℚ) :=
  t.rows.filterMap (fun r => (rowHeight r).map (fun q => (r, q)))

/-- Distinct non-null gender values in first-occurrence order among the
rows that survive the height cleaning step; this is what the code
presents as the available options. -/
def availableGenders (t : CharTable) : List String :=
  firstOccurs ((heightRows t).filterMap (fun p => p.1.gender))

/-- Rendering of the available-genders array inside the error message. -/
def fmtGenders (l : List String) : String :=
  String.intercalate " " (l.map (fun s => "\x27" ++ s ++ "\x27"))

/-- Message of the ValueError for a gender that is neither the sentinel
All nor one of the available gender values; it names the available set. -/
def genderErrMsg (l : List String) : String :=
  "Invalid gender selection. Available options: [" ++ fmtGenders l ++ "]"

/-- Truth of isinstance(v, (int, float)) for an argument value. -/
def isNumeric : PyVal → Bool
  | .int _ => true
  | .float _ => true
  | _ => false

/-- Numeric content of an int or float argument value. -/
def pyToRat : PyVal → ℚ
  | .int n => (n : ℚ)
  | .float q => q
  | _ => 0

/-- Truth of the comparison of the gender argument with a gender cell:
a non-string argument compares unequal to every string cell. -/
def genderSelects (g : PyVal) (cell : String) : Bool :=
  match g with
  | .str s => s = cell
  | _ => false

/-- Message of the ValueError for non-numeric height bounds. -/
def msgHeightsNumeric : String := "Max and min heights must be numerical values."

/-- Message of the ValueError for a minimum not below the maximum. -/
def msgMinMax : String := "min_height must be less than max_height."

/-- Message of the KeyError for missing character-table columns. -/
def msgCharCols : String :=
  "Required columns \x27Actor_Gender\x27 or \x27Actor_Height\x27 not found in character_metadata."

/-- Embedding of MovieDataProcessor.actor_distributions (the plot flag
is omitted: it only triggers rendering and does not affect the returned
table): guard the columns, clean the heights, validate the bounds, then
the gender, filter by gender and inclusive height range, and histogram
the surviving heights in ascending height order. -/
def actor_distributions (t : CharTable) (gender : PyVal) (max_height : PyVal)
    (min_height : PyVal) : Except PyErr (List (ℚ × Nat)) :=
  if t.hasGender = false ∨ t.hasHeight = false then .error (.keyError msgCharCols)
  else
    let dfa := heightRows t
    if isNumeric min_height = false ∨ isNumeric max_height = false then
      .error (.valueError msgHeightsNumeric)
    else if pyToRat max_height ≤ pyToRat min_height then
      .error (.valueError msgMinMax)
    else
      let avail := availableGenders t
      let genderInAvail : Bool :=
        match gender with
        | .str s => avail.contains s
        | _ => false
      if gender ≠ PyVal.str "All" ∧ genderInAvail = false then
        .error (.valueError (genderErrMsg avail))
      else
        let dfg := if gender = PyVal.str "All" then dfa
          else dfa.filter (fun p =>
            match p.1.gender with
            | some s => genderSelects gender s
            | none => false)
        let dfr := dfg.filter
          (fun p => pyToRat min_height ≤ p.2 ∧ p.2 ≤ pyToRat max_height)
        if dfr.isEmpty then .ok []
        else .ok (groupCountAsc (dfr.map Prod.snd))

/-- Leftmost-match regex scan: try the fixed-shape pattern f at every
position from the left and return its first success. -/
def scanFirst (f : List Char → Option Nat) : List Char → Option Nat
  | [] => none
  | c :: cs =>
    match f (c :: cs) with
    | some n => some n
    | none => scanFirst f cs

/-- Pattern of four consecutive decimal digits at the head of the input,
with their numeric value. -/
def take4Digits (l : List Char) : Option Nat :=
  match l with
  | a :: b :: c :: d :: _ =>
    if a.isDigit && b.isDigit && c.isDigit && d.isDigit
    then some (digitsVal [a, b, c, d]) else none
  | _ => none

/-- Year extraction of the code: first run of four digits in the text. -/
def extractYear (s : String) : Option Nat := scanFirst take4Digits s.toList

/-- Pattern of a dash, two digits and a dash at the head of the input,
with the numeric value of the two digits. -/
def dashMonth (l : List Char) : Option Nat :=
  match l with
  | a :: b :: c :: d :: _ =>
    if a = '-' && b.isDigit && c.isDigit && d = '-'
    then some (digitsVal [b, c]) else none
  | _ => none

/-- Month extraction of the code: first occurrence of two digits
enclosed between dashes in the text. -/
def extractMonth (s : String) : Option Nat := scanFirst dashMonth s.toList

/-- Per-row genre test of releases: the raw cell is passed to
ast.literal_eval, so a null cell and a cell that is already a dict both
raise ValueError (caught, excluding the record), a string parsing to a
dict is tested for containing the requested name among its values, and
a string parsing to a non-dict raises an uncaught AttributeError on
.values(). -/
def genre_filter (g : String) : Option GenreCell → Except PyErr Bool
  | none => .ok false
  | some (.dict _) => .ok false
  | some (.str s) =>
    match pyLiteralEval s with
    | none => .ok false
    | some (.dict d) => .ok ((d.map Prod.snd).contains g)
    | some .nonDict => .error (.attributeError attrValuesMsg)

/-- Filtering with a fallible predicate, propagating the first raised
exception, as a pandas apply does. -/
def filterE {α : Type} (f : α → Except PyErr Bool) : List α → Except PyErr (List α)
  | [] => .ok []
  | x :: xs =>
    match f x with
    | .error e => .error e
    | .ok b =>
      match filterE f xs with
      | .error e => .error e
      | .ok r => .ok (if b then x :: r else r)

/-- Message of the KeyError for missing movie-table columns. -/
def msgMovieCols : String :=
  "Required columns \x27Release_Date\x27 or \x27Genres\x27 not found in movie_metadata."

/-- Extracted year of a movie row, none when the date cell is null or
contains no run of four digits. -/
def rowYear (r : MovieRow) : Option Nat := r.releaseDate.bind extractYear

/-- Embedding of MovieDataProcessor.releases: guard the columns, drop
null dates, extract years and drop rows without one, optionally filter
by the requested genre (a None or empty-string genre is falsy in Python
and disables the filter), and count the remaining rows per year in
ascending year order; an empty remainder gives an empty table. -/
def releases (t : MovieTable) (genre : Option String) : Except PyErr (List (Nat × Nat)) :=
  if t.hasReleaseDate = false ∨ t.hasGenres = false then .error (.keyError msgMovieCols)
  else
    let dfy := (t.rows.filter (fun r => r.releaseDate.isSome)).filterMap
      (fun r => (rowYear r).map (fun y => (y, r.genres)))
    let filtered : Except PyErr (List (Nat × Option GenreCell)) :=
      match genre with
      | some g => if g = "" then .ok dfy else filterE (fun p => genre_filter g p.2) dfy
      | none => .ok dfy
    match filtered with
    | .error e => .error e
    | .ok l =>
      if l.isEmpty then .ok []
      else .ok (groupCountAsc (l.map Prod.fst))

/-- Message of the KeyError for a missing birthdate column. -/
def msgBirthCol : String :=
  "Required column \x27Actor_Birthdate\x27 not found in character_metadata."

/-- Embedding of MovieDataProcessor.ages: guard the column, drop null
birthdates, default any grouping mode other than Y or M to Y, extract
the year (first four-digit run) or month (two digits between dashes),
drop rows where the extraction fails, and count rows per bucket in
ascending bucket order. -/
def ages (t : CharTable) (group_by : String) : Except PyErr (List (Nat × Nat)) :=
  if t.hasBirthdate = false then .error (.keyError msgBirthCol)
  else
    let bs := t.rows.filterMap CharRow.birthdate
    let gb := if group_by = "Y" ∨ group_by = "M" then group_by else "Y"
    if gb = "Y" then .ok (groupCountAsc (bs.filterMap extractYear))
    else .ok (groupCountAsc (bs.filterMap extractMonth))

/-- Distinct non-null gender values in first-occurrence order over all
rows of the character table (before any height cleaning); the spec
phrases gender validity in terms of this set. -/
def observedGenders (t : CharTable) : List String :=
  firstOccurs (t.rows.filterMap CharRow.gender)

/-- Modelled from the spec: month extraction as stated by the claim,
namely the two-digit month following a dash (no trailing dash
required), used to compare the specified and the implemented
behaviour. -/
def dashMonthSpec (l : List Char) : Option Nat :=
  match l with
  | a :: b :: c :: _ =>
    if a = '-' && b.isDigit && c.isDigit
    then some (digitsVal [b, c]) else none
  | _ => none

/-- Modelled from the spec: first two-digit month following a dash in
the birthdate text, the extraction rule the claim describes. -/
def extractMonthSpec (s : String) : Option Nat := scanFirst dashMonthSpec s.toList

/-- Genre literal of the specification's concrete decoding example. -/
def exampleGenreStr : String :=
  "\x7b\"/m/01jfsb\": \"Thriller\", \"/m/06n90\": \"Science Fiction\"\x7d"

/-- Movie table of the unit tests: four rows whose Genres cells are
already dicts; Drama occurs twice, every other genre once. -/
def tGenres4 : MovieTable :=
  { rows := [
      { releaseDate := none,
        genres := some (.dict [("/m/01jfsb", "Thriller"), ("/m/06n90", "Science Fiction")]) },
      { releaseDate := none,
        genres := some (.dict [("/m/02kdv5l", "Action"), ("/m/03k9fj", "Adventure")]) },
      { releaseDate := none, genres := some (.dict [("/m/07s9rl0", "Drama")]) },
      { releaseDate := none,
        genres := some (.dict [("/m/03bxz7", "Biographical film"), ("/m/07s9rl0", "Drama")]) } ] }

/-- Movie table with a single row whose Genres cell is a string encoding
a list, the malformed-cell shape the genre-codec claim quantifies over. -/
def tPoison : MovieTable :=
  { rows := [ { releaseDate := none, genres := some (.str "[1, 2]") } ] }

/-- Movie table of the releases example: release years 1999, 1999, 2001
and one date without any four-digit run. -/
def tReleases4 : MovieTable :=
  { rows := [
      { releaseDate := some "1999-05-01", genres := none },
      { releaseDate := some "1999", genres := none },
      { releaseDate := some "2001-11-30", genres := none },
      { releaseDate := some "Nov third", genres := none } ] }

/-- Movie table with one 1999 row whose Genres cell is already a dict
containing the value Drama. -/
def tDictGenre : MovieTable :=
  { rows := [
      { releaseDate := some "1999-01-01", genres := some (.dict [("/m/x", "Drama")]) } ] }

/-- Movie table with one 1999 row whose Genres cell is a string encoding
a dict containing the value Drama. -/
def tStrGenre : MovieTable :=
  { rows := [
      { releaseDate := some "1999-01-01", genres := some (.str "\x7b\"/m/x\": \"Drama\"\x7d") } ] }

/-- Character table with a single row of height 1.75 whose gender cell
is null. -/
def tNullGender : CharTable :=
  { rows := [ { movieId := "m1", gender := none, height := some "1.75", birthdate := none } ] }

/-- Character table with a single row whose birthdate is a year-month
text without a trailing dash after the month. -/
def tYearMonth : CharTable :=
  { rows := [ { movieId := "m1", gender := none, height := none, birthdate := some "1975-05" } ] }

/-- Character table with four rows over three movies: movie b has two
actor rows, movies a and c one each. -/
def tActors : CharTable :=
  { rows := [
      { movieId := "b", gender := none, height := none, birthdate := none },
      { movieId := "a", gender := none, height := none, birthdate := none },
      { movieId := "b", gender := none, height := none, birthdate := none },
      { movieId := "c", gender := none, height := none, birthdate := none } ] }

/-- Character table with two rows of genders F and M and heights 1.6
and 1.8, used to instantiate the distribution theorems. -/
def tTwoActors : CharTable :=
  { rows := [
      { movieId := "m1", gender := some "F", height := some "1.6", birthdate := some "1970-01-01" },
      { movieId := "m2", gender := some "M", height := some "1.8", birthdate := some "1980-12-31" } ] }

/-- Truth value the genre filter of releases assigns to one cell when no
exception is raised: only a string cell parsing to a dict whose values
contain the requested name passes; null cells, cells that are already
dicts (ValueError inside ast.literal_eval, caught) and unparseable
strings fail. -/
def genreMatches (g : String) : Option GenreCell → Bool
  | some (.str s) =>
    match pyLiteralEval s with
    | some (.dict d) => (d.map Prod.snd).contains g
    | _ => false
  | _ => false

/-- Height-cleaned rows surviving the gender filter of
actor_distributions: all of them for the sentinel All (null genders
included), otherwise the rows whose gender cell equals the requested
string. -/
def genderFilteredRows (t : CharTable) (gv : PyVal) : List (CharRow × ℚ) :=
  if gv = PyVal.str "All" then heightRows t
  else (heightRows t).filter (fun p =>
    match p.1.gender with
    | some s => genderSelects gv s
    | none => false)

/-- Heights of the rows surviving cleaning, gender selection and the
inclusive range filter of actor_distributions, in table order. -/
def selectedHeights (t : CharTable) (gv : PyVal) (mn mx : ℚ) : List ℚ :=
  ((genderFilteredRows t gv).filter (fun p => mn ≤ p.2 ∧ p.2 ≤ mx)).map Prod.snd

theorem mem_firstOccurs {α : Type} [DecidableEq α] {a : α} {l : List α} :
    a ∈ firstOccurs l ↔ a ∈ l := by
  induction l with
  | nil => simp [firstOccurs]
  | cons x xs ih =>
    by_cases h : a = x
    · subst h; simp [firstOccurs]
    · simp [firstOccurs, List.mem_filter, h, ih]

theorem nodup_firstOccurs {α : Type} [DecidableEq α] (l : List α) : (firstOccurs l).Nodup := by
  induction l with
  | nil => simp [firstOccurs]
  | cons x xs ih =>
    simp only [firstOccurs, List.nodup_cons]
    refine ⟨fun hmem => ?_, ih.filter _⟩
    have h2 := (List.mem_filter.mp hmem).2
    simp at h2

theorem sum_count_firstOccurs {α : Type} [DecidableEq α] (l : List α) :
    ((firstOccurs l).map (fun a => l.count a)).sum = l.length := by
  rw [← List.sum_toFinset _ (nodup_firstOccurs l)]
  have hfin : (firstOccurs l).toFinset = l.toFinset := by
    ext a
    simp [List.mem_toFinset, mem_firstOccurs]
  rw [hfin]
  exact List.sum_toFinset_count_eq_length l

theorem count_map_eq_length_filter {α β : Type} [DecidableEq α] [DecidableEq β]
    (f : α → β) (l : List α) (k : β) :
    (l.map f).count k = (l.filter (fun x => f x = k)).length := by
  induction l with
  | nil => simp
  | cons x xs ih =>
    by_cases h : f x = k
    · simp [List.count_cons, h, ih, List.filter_cons]
    · simp [List.count_cons, h, ih, List.filter_cons]

theorem pairwise_ne_of_nodup_map {α β : Type} (f : α → β) {l : List α}
    (h : (l.map f).Nodup) : l.Pairwise (fun a b => f a ≠ f b) := by
  induction l with
  | nil => simp
  | cons x xs ih =>
    simp only [List.map_cons, List.nodup_cons] at h
    refine List.Pairwise.cons ?_ (ih h.2)
    intro b hb heq
    exact h.1 (by rw [heq]; exact List.mem_map_of_mem f hb)

theorem groupCountAsc_mem {α : Type} [LinearOrder α] {l : List α} {k : α} {c : Nat} :
    (k, c) ∈ groupCountAsc l ↔ (k ∈ l ∧ c = l.count k) := by
  unfold groupCountAsc
  rw [List.mem_map]
  constructor
  · rintro ⟨k', hk', heq⟩
    cases heq
    exact ⟨mem_firstOccurs.mp (((List.perm_insertionSort _ _).mem_iff).mp hk'), rfl⟩
  · rintro ⟨hk, rfl⟩
    exact ⟨k, ((List.perm_insertionSort _ _).mem_iff).mpr (mem_firstOccurs.mpr hk), rfl⟩

theorem groupCountAsc_sorted {α : Type} [LinearOrder α] (l : List α) :
    (groupCountAsc l).Pairwise (fun a b => a.1 < b.1) := by
  unfold groupCountAsc
  rw [List.pairwise_map]
  have hs : (List.insertionSort (fun a b => a ≤ b) (firstOccurs l)).Pairwise (fun a b => a ≤ b) :=
    List.sorted_insertionSort _ _
  have hn : (List.insertionSort (fun a b => a ≤ b) (firstOccurs l)).Nodup :=
    ((List.perm_insertionSort _ _).nodup_iff).mpr (nodup_firstOccurs l)
  exact (hs.and hn).imp (fun h => lt_of_le_of_ne h.1 h.2)

theorem groupCountAsc_sum {α : Type} [LinearOrder α] (l : List α) :
    ((groupCountAsc l).map Prod.snd).sum = l.length := by
  unfold groupCountAsc
  rw [List.map_map]
  have hperm : List.Perm ((List.insertionSort (fun a b => a ≤ b) (firstOccurs l)).map
      (Prod.snd ∘ fun k => (k, l.count k))) ((firstOccurs l).map (fun a => l.count a)) :=
    (List.perm_insertionSort _ _).map _
  rw [hperm.sum_eq]
  exact sum_count_firstOccurs l

theorem value_counts_length (gs : List String) :
    (value_counts gs).length = (firstOccurs gs).length := by
  unfold value_counts
  rw [List.length_map, (List.perm_insertionSort _ _).length_eq, List.length_map]
  simp [List.enum]

theorem value_counts_mem {gs : List String} {g : String} {c : Nat}
    (h : (g, c) ∈ value_counts gs) : g ∈ gs ∧ c = gs.count g := by
  unfold value_counts at h
  rw [List.mem_map] at h
  obtain ⟨x, hx, heq⟩ := h
  have hx' := (List.perm_insertionSort _ _).mem_iff.mp hx
  rw [List.mem_map] at hx'
  obtain ⟨p, hp, hpe⟩ := hx'
  have hmem : p.2 ∈ firstOccurs gs := by
    have h2 := List.mem_enum_iff_getElem?.mp hp
    exact List.getElem?_mem h2
  subst hpe
  obtain ⟨rfl, rfl⟩ := Prod.mk.injEq .. |>.mp heq
  exact ⟨mem_firstOccurs.mp hmem, rfl⟩

theorem value_counts_pairwise (gs : List String) :
    (value_counts gs).Pairwise (fun a b => b.2 < a.2 ∨
      (a.2 = b.2 ∧ (firstOccurs gs).indexOf a.1 < (firstOccurs gs).indexOf b.1)) := by
  unfold value_counts
  rw [List.pairwise_map]
  have hperm := List.perm_insertionSort vcR
    ((firstOccurs gs).enum.map (fun p => (p.1, p.2, gs.count p.2)))
  have hsort : (List.insertionSort vcR
      ((firstOccurs gs).enum.map (fun p => (p.1, p.2, gs.count p.2)))).Pairwise vcR :=
    List.sorted_insertionSort _ _
  have hfst : ((List.insertionSort vcR
      ((firstOccurs gs).enum.map (fun p => (p.1, p.2, gs.count p.2)))).map
      (fun x => x.1)).Nodup := by
    refine (hperm.map (fun x => x.1)).nodup_iff.mpr ?_
    rw [List.map_map]
    exact List.nodup_enum_map_fst _
  have hchar : ∀ x ∈ List.insertionSort vcR
      ((firstOccurs gs).enum.map (fun p => (p.1, p.2, gs.count p.2))),
      (firstOccurs gs).indexOf x.2.1 = x.1 := by
    intro x hx
    have hx' := hperm.mem_iff.mp hx
    rw [List.mem_map] at hx'
    obtain ⟨p, hp, hpe⟩ := hx'
    subst hpe
    have h2 := List.mem_enum_iff_getElem?.mp hp
    obtain ⟨hlt, hge⟩ := List.getElem?_eq_some.mp h2
    simpa [hge] using List.indexOf_getElem (nodup_firstOccurs gs) p.1 hlt
  refine List.Pairwise.imp_of_mem ?_ (hsort.and (pairwise_ne_of_nodup_map _ hfst))
  intro a b ha hb hab
  obtain ⟨hr, hne⟩ := hab
  unfold vcR at hr
  rcases hr with h | ⟨hcnt, hidx⟩
  · exact Or.inl h
  · right
    refine ⟨hcnt, ?_⟩
    rw [hchar a ha, hchar b hb]
    exact lt_of_le_of_ne hidx hne

theorem map_snd_enum {α : Type} (l : List α) : l.enum.map Prod.snd = l := by
  simp only [List.enum]
  exact List.enumFrom_map_snd 0 l

theorem value_counts_sumAux (gs : List String) :
    (((firstOccurs gs).enum.map (fun p => (p.1, p.2, gs.count p.2))).map
      (fun x => x.2.2)).sum = gs.length := by
  rw [List.map_map]
  have h1 : ((fun x : Nat × String × Nat => x.2.2) ∘
      fun p : Nat × String => (p.1, p.2, gs.count p.2)) =
      (fun p : Nat × String => gs.count p.2) := rfl
  rw [h1]
  have h2 : ((firstOccurs gs).enum.map (fun p => gs.count p.2)) =
      ((firstOccurs gs).map (fun a => gs.count a)) := by
    have h3 := congrArg (List.map (fun a => gs.count a)) (map_snd_enum (firstOccurs gs))
    rw [← h3, List.map_map]
    rfl
  rw [h2]
  exact sum_count_firstOccurs gs

theorem value_counts_sum (gs : List String) :
    ((value_counts gs).map Prod.snd).sum = gs.length := by
  unfold value_counts
  rw [List.map_map]
  have hperm : List.Perm (List.insertionSort vcR
      ((firstOccurs gs).enum.map (fun p => (p.1, p.2, gs.count p.2))))
      ((firstOccurs gs).enum.map (fun p => (p.1, p.2, gs.count p.2))) :=
    List.perm_insertionSort _ _
  rw [(hperm.map (Prod.snd ∘ fun x => (x.2.1, x.2.2))).sum_eq]
  exact value_counts_sumAux gs

theorem movie_type_ok {t : MovieTable} {gs : List String} {n : Nat}
    (hg : t.hasGenres = true) (hd : decodeAllGenres t = .ok gs)
    (h1 : 1 ≤ n) (h2 : n ≤ (firstOccurs gs).length) :
    movie_type t (.int (n : Int)) = .ok ((value_counts gs).take n) := by
  have hlen := value_counts_length gs
  simp only [movie_type]
  rw [if_neg (by omega : ¬((n : Int) < 1))]
  rw [hg, if_neg (by decide : ¬(true = false)), hd]
  simp only []
  rw [hlen, if_neg (by omega : ¬(((firstOccurs gs).length : Int) < (n : Int)))]
  simp

/-- C2: for every movie table whose genre decoding succeeds and every N
between 1 and the number of distinct decoded genre names, movie_type
returns exactly N rows, sorted by descending count with ties broken by
first-encountered order, each row carrying the true count of its name,
and the sum of the returned counts is at most the total number of
decoded genre mentions. -/
theorem c2_movie_type_topN (t : MovieTable) (gs : List String) (N : Nat)
    (hg : t.hasGenres = true) (hd : decodeAllGenres t = .ok gs)
    (h1 : 1 ≤ N) (h2 : N ≤ (firstOccurs gs).length) :
    ∃ r, movie_type t (.int (N : Int)) = .ok r ∧
      r.length = N ∧
      r.Pairwise (fun a b => b.2 < a.2 ∨
        (a.2 = b.2 ∧ (firstOccurs gs).indexOf a.1 < (firstOccurs gs).indexOf b.1)) ∧
      (∀ p ∈ r, p.1 ∈ gs ∧ p.2 = gs.count p.1) ∧
      (r.map Prod.snd).sum ≤ gs.length := by
  refine ⟨(value_counts gs).take N, movie_type_ok hg hd h1 h2, ?_, ?_, ?_, ?_⟩
  · rw [List.length_take, value_counts_length]
    omega
  · exact (value_counts_pairwise gs).sublist (List.take_sublist N _)
  · intro p hp
    have hmem : p ∈ value_counts gs := List.mem_of_mem_take hp
    exact value_counts_mem hmem
  · have hsplit : value_counts gs = (value_counts gs).take N ++ (value_counts gs).drop N :=
      (List.take_append_drop N _).symm
    have hsum := value_counts_sum gs
    rw [hsplit, List.map_append, List.sum_append] at hsum
    omega

/-- Witness for C2 at the unit-test table and N equal to 2. -/
theorem c2_movie_type_topN_witness :
    (1 ≤ 2 ∧ 2 ≤ (firstOccurs ["Thriller", "Science Fiction", "Action", "Adventure",
      "Drama", "Biographical film", "Drama"]).length) ∧
    ∃ r, movie_type tGenres4 (.int ((2 : Nat) : Int)) = .ok r ∧ r.length = 2 := by
  obtain ⟨r, ha, hb, _⟩ := c2_movie_type_topN tGenres4
    ["Thriller", "Science Fiction", "Action", "Adventure", "Drama", "Biographical film", "Drama"]
    2 rfl (by decide) (by decide) (by decide)
  exact ⟨⟨by decide, by decide⟩, r, ha, hb⟩

/-- Counterexample to C1: a string cell encoding a list (a wrong-type
value the claim covers) does not make the decoding skip the record; the
AttributeError raised on .values() escapes movie_type. -/
theorem c1_genre_codec_counterexample :
    extractGenreValues (.str "[1, 2]") = .error (.attributeError attrValuesMsg) ∧
    movie_type tPoison (.int 1) = .error (.attributeError attrValuesMsg) := by
  constructor
  · decide
  · decide

/-- C1 amended: a genre cell string whose literal parse fails with
SyntaxError or ValueError (syntax error, bare name, empty text) is
skipped silently, contributing no names; but a string parsing to a
non-mapping literal raises an AttributeError that escapes the decoding;
the well-formed example decodes to exactly its value list in encoded
order. -/
theorem c1_genre_codec_amended :
    (∀ s, pyLiteralEval s = none → extractGenreValues (.str s) = .ok []) ∧
    (∀ s, pyLiteralEval s = some .nonDict →
      extractGenreValues (.str s) = .error (.attributeError attrValuesMsg)) ∧
    extractGenreValues (.str exampleGenreStr) = .ok ["Thriller", "Science Fiction"] := by
  refine ⟨?_, ?_, by decide⟩
  · intro s hs
    simp [extractGenreValues, hs]
  · intro s hs
    simp [extractGenreValues, hs]

/-- Witness for C1 amended at a bare-name cell and a number cell. -/
theorem c1_genre_codec_amended_witness :
    (pyLiteralEval "Thriller" = none ∧ extractGenreValues (.str "Thriller") = .ok []) ∧
    (pyLiteralEval "3" = some .nonDict ∧
      extractGenreValues (.str "3") = .error (.attributeError attrValuesMsg)) :=
  ⟨⟨by decide, c1_genre_codec_amended.1 "Thriller" (by decide)⟩,
   ⟨by decide, c1_genre_codec_amended.2.1 "3" (by decide)⟩⟩

theorem movie_type_invalidN (t : MovieTable) (v : PyVal)
    (hv : ∀ m : Int, v = .int m → m < 1) :
    movie_type t v = .error (.valueError msgNMustBe) := by
  match v with
  | .int m =>
    have hm := hv m rfl
    simp only [movie_type, if_pos hm]
  | .float q => simp only [movie_type]
  | .str s => simp only [movie_type]
  | .pynone => simp only [movie_type]

theorem movie_type_missing_col (t : MovieTable) (n : Nat)
    (hf : t.hasGenres = false) (h1 : 1 ≤ n) :
    movie_type t (.int (n : Int)) = .error (.keyError msgGenresMissing) := by
  simp only [movie_type]
  rw [if_neg (by omega : ¬((n : Int) < 1)), hf, if_pos rfl]

theorem movie_type_not_enough (t : MovieTable) (gs : List String) (n : Nat)
    (hg : t.hasGenres = true) (hd : decodeAllGenres t = .ok gs)
    (h1 : 1 ≤ n) (h2 : (firstOccurs gs).length < n) :
    movie_type t (.int (n : Int)) = .error (.keyError msgNotEnough) := by
  have hlen := value_counts_length gs
  simp only [movie_type]
  rw [if_neg (by omega : ¬((n : Int) < 1)), hg, if_neg (by decide : ¬(true = false)), hd]
  simp only []
  rw [hlen, if_pos (by omega : (((firstOccurs gs).length : Int) < (n : Int)))]

/-- C3: movie_type fails with the invalid-argument ValueError for every
N that is not a positive integer (non-int values included), with the
not-enough-data KeyError for every N beyond the number of distinct
decoded genre names (strict policy, not truncation), and with the
missing-column KeyError when the Genres column is absent. -/
theorem c3_movie_type_validation :
    (∀ (t : MovieTable) (v : PyVal), (∀ m : Int, v = .int m → m < 1) →
      movie_type t v = .error (.valueError msgNMustBe)) ∧
    (∀ (t : MovieTable) (gs : List String) (n : Nat), t.hasGenres = true →
      decodeAllGenres t = .ok gs → 1 ≤ n → (firstOccurs gs).length < n →
      movie_type t (.int (n : Int)) = .error (.keyError msgNotEnough)) ∧
    (∀ (t : MovieTable) (n : Nat), t.hasGenres = false → 1 ≤ n →
      movie_type t (.int (n : Int)) = .error (.keyError msgGenresMissing)) :=
  ⟨movie_type_invalidN,
   fun t gs n hg hd h1 h2 => movie_type_not_enough t gs n hg hd h1 h2,
   fun t n hf h1 => movie_type_missing_col t n hf h1⟩

/-- Witness for C3 at N equal to 0, a string N, N equal to 7 over six
distinct genres, and a table without the Genres column. -/
theorem c3_movie_type_validation_witness :
    movie_type tGenres4 (.int 0) = .error (.valueError msgNMustBe) ∧
    movie_type tGenres4 (.str "three") = .error (.valueError msgNMustBe) ∧
    movie_type tGenres4 (.int ((7 : Nat) : Int)) = .error (.keyError msgNotEnough) ∧
    movie_type { hasGenres := false, rows := [] } (.int ((1 : Nat) : Int)) =
      .error (.keyError msgGenresMissing) := by
  refine ⟨?_, ?_, ?_, ?_⟩
  · refine c3_movie_type_validation.1 tGenres4 (.int 0) ?_
    intro m h
    injection h with h'
    omega
  · refine c3_movie_type_validation.1 tGenres4 (.str "three") ?_
    intro m h
    exact PyVal.noConfusion h
  · exact c3_movie_type_validation.2.1 tGenres4
      ["Thriller", "Science Fiction", "Action", "Adventure", "Drama", "Biographical film",
        "Drama"] 7 rfl (by decide) (by decide) (by decide)
  · exact c3_movie_type_validation.2.2 { hasGenres := false, rows := [] } 1 rfl (by decide)

/-- C10: the not-enough-data failure and the missing-column failure of
movie_type are raised as the same exception kind (KeyError), differing
only in their message text, so a caller can separate the recoverable
from the fatal condition only by that text. -/
theorem c10_key_error_kinds :
    (∀ (t : MovieTable) (n : Nat), t.hasGenres = false → 1 ≤ n →
      movie_type t (.int (n : Int)) = .error (.keyError msgGenresMissing)) ∧
    (∀ (t : MovieTable) (gs : List String) (n : Nat), t.hasGenres = true →
      decodeAllGenres t = .ok gs → 1 ≤ n → (firstOccurs gs).length < n →
      movie_type t (.int (n : Int)) = .error (.keyError msgNotEnough)) ∧
    msgGenresMissing ≠ msgNotEnough :=
  ⟨fun t n hf h1 => movie_type_missing_col t n hf h1,
   fun t gs n hg hd h1 h2 => movie_type_not_enough t gs n hg hd h1 h2,
   by decide⟩

/-- Witness for C10 at a column-less table and at N equal to 7. -/
theorem c10_key_error_kinds_witness :
    movie_type { hasGenres := false, rows := [] } (.int ((1 : Nat) : Int)) =
      .error (.keyError msgGenresMissing) ∧
    movie_type tGenres4 (.int ((7 : Nat) : Int)) = .error (.keyError msgNotEnough) :=
  ⟨c10_key_error_kinds.1 { hasGenres := false, rows := [] } 1 rfl (by decide),
   c10_key_error_kinds.2.1 tGenres4
     ["Thriller", "Science Fiction", "Action", "Adventure", "Drama", "Biographical film",
       "Drama"] 7 rfl (by decide) (by decide) (by decide)⟩

theorem actorCountsPerMovie_count (t : CharTable) (k : Nat) :
    (actorCountsPerMovie t).count k =
      ((firstOccurs (charMovieIds t)).filter
        (fun id => (charMovieIds t).count id = k)).length := by
  unfold actorCountsPerMovie
  rw [count_map_eq_length_filter]
  exact ((List.perm_insertionSort _ _).filter _).length_eq

theorem actorCountsPerMovie_length (t : CharTable) :
    (actorCountsPerMovie t).length = (firstOccurs (charMovieIds t)).length := by
  unfold actorCountsPerMovie
  rw [List.length_map, (List.perm_insertionSort _ _).length_eq]

/-- C9: the actor-count histogram bucket counts sum to the number of
distinct movie identifiers in the character table, a bucket (k, m)
holds exactly when some movie has k actor rows and m is the number of
distinct movie identifiers with exactly k rows, and the buckets are
sorted strictly ascending in k. -/
theorem c9_actor_count_histogram (t : CharTable) :
    ((actor_count t).map Prod.snd).sum = (firstOccurs (charMovieIds t)).length ∧
    (∀ k m, (k, m) ∈ actor_count t ↔
      ((∃ id ∈ firstOccurs (charMovieIds t), (charMovieIds t).count id = k) ∧
        m = ((firstOccurs (charMovieIds t)).filter
          (fun id => (charMovieIds t).count id = k)).length)) ∧
    (actor_count t).Pairwise (fun a b => a.1 < b.1) := by
  refine ⟨?_, ?_, ?_⟩
  · unfold actor_count
    rw [groupCountAsc_sum, actorCountsPerMovie_length]
  · intro k m
    unfold actor_count
    rw [groupCountAsc_mem, actorCountsPerMovie_count]
    constructor
    · rintro ⟨hk, rfl⟩
      refine ⟨?_, rfl⟩
      unfold actorCountsPerMovie at hk
      rw [List.mem_map] at hk
      obtain ⟨id, hid, rfl⟩ := hk
      exact ⟨id, (List.perm_insertionSort _ _).mem_iff.mp hid, rfl⟩
    · rintro ⟨⟨id, hid, hcnt⟩, rfl⟩
      refine ⟨?_, rfl⟩
      unfold actorCountsPerMovie
      rw [List.mem_map]
      exact ⟨id, (List.perm_insertionSort _ _).mem_iff.mpr hid, hcnt⟩
  · unfold actor_count
    exact groupCountAsc_sorted _

theorem scanFirst_eq_some {f : List Char → Option Nat} (hnil : f [] = none)
    {l : List Char} {n : Nat} :
    scanFirst f l = some n ↔
      ∃ i, f (l.drop i) = some n ∧ ∀ j < i, f (l.drop j) = none := by
  induction l with
  | nil =>
    simp only [scanFirst]
    constructor
    · intro h
      exact absurd h (by simp)
    · rintro ⟨i, hi, hj⟩
      rw [List.drop_nil, hnil] at hi
      exact absurd hi (by simp)
  | cons c cs ih =>
    simp only [scanFirst]
    cases hf : f (c :: cs) with
    | some m =>
      constructor
      · intro h
        injection h with h'
        subst h'
        exact ⟨0, by simpa using hf, by omega⟩
      · rintro ⟨i, hi, hj⟩
        cases i with
        | zero =>
          rw [List.drop_zero, hf] at hi
          exact hi
        | succ k =>
          have h0 := hj 0 (by omega)
          rw [List.drop_zero, hf] at h0
          exact absurd h0 (by simp)
    | none =>
      rw [ih]
      constructor
      · rintro ⟨i, hi, hj⟩
        refine ⟨i + 1, by simpa using hi, ?_⟩
        intro j hj'
        cases j with
        | zero => simpa using hf
        | succ jk => simpa using hj jk (by omega)
      · rintro ⟨i, hi, hj⟩
        cases i with
        | zero =>
          rw [List.drop_zero, hf] at hi
          exact absurd hi (by simp)
        | succ k =>
          refine ⟨k, by simpa using hi, ?_⟩
          intro j hj'
          simpa using hj (j + 1) (by omega)

theorem take4Digits_eq_some {l : List Char} {n : Nat} :
    take4Digits l = some n ↔
      ∃ a b c d rest, l = a :: b :: c :: d :: rest ∧
        (a.isDigit && b.isDigit && c.isDigit && d.isDigit) = true ∧
        n = digitsVal [a, b, c, d] := by
  match l with
  | [] => simp [take4Digits]
  | [a] => simp [take4Digits]
  | [a, b] => simp [take4Digits]
  | [a, b, c] => simp [take4Digits]
  | a :: b :: c :: d :: rest =>
    simp only [take4Digits]
    by_cases h : (a.isDigit && b.isDigit && c.isDigit && d.isDigit) = true
    · simp only [if_pos h]
      constructor
      · intro he
        injection he with he'
        exact ⟨a, b, c, d, rest, rfl, h, he'.symm⟩
      · rintro ⟨a', b', c', d', rest', heq, hdig, rfl⟩
        obtain ⟨rfl, rfl, rfl, rfl, rfl⟩ :=
          by simpa using heq
        rfl
    · rw [if_neg h]
      constructor
      · intro he
        exact absurd he (by simp)
      · rintro ⟨a', b', c', d', rest', heq, hdig, rfl⟩
        exfalso
        apply h
        injection heq with e1 r1
        injection r1 with e2 r2
        injection r2 with e3 r3
        injection r3 with e4 r4
        rw [e1, e2, e3, e4]
        exact hdig

theorem dashMonth_eq_some {l : List Char} {m : Nat} :
    dashMonth l = some m ↔
      ∃ b c rest, l = '-' :: b :: c :: '-' :: rest ∧ (b.isDigit && c.isDigit) = true ∧
        m = digitsVal [b, c] := by
  match l with
  | [] => simp [dashMonth]
  | [a] => simp [dashMonth]
  | [a, b] => simp [dashMonth]
  | [a, b, c] => simp [dashMonth]
  | a :: b :: c :: d :: rest =>
    simp only [dashMonth]
    by_cases h : (a = '-' && b.isDigit && c.isDigit && d = '-') = true
    · have ha : a = '-' := by
        simp only [Bool.and_eq_true, decide_eq_true_eq] at h
        exact h.1.1.1
      have hd : d = '-' := by
        simp only [Bool.and_eq_true, decide_eq_true_eq] at h
        exact h.2
      have hbc : (b.isDigit && c.isDigit) = true := by
        simp only [Bool.and_eq_true, decide_eq_true_eq] at h
        rw [Bool.and_eq_true]
        exact ⟨h.1.1.2, h.1.2⟩
      subst ha
      subst hd
      rw [if_pos h]
      constructor
      · intro he
        injection he with he'
        exact ⟨b, c, rest, rfl, hbc, he'.symm⟩
      · rintro ⟨b', c', rest', heq, hdig, rfl⟩
        obtain ⟨rfl, rfl, rfl⟩ := by simpa using heq
        rfl
    · rw [if_neg h]
      constructor
      · intro he
        exact absurd he (by simp)
      · rintro ⟨b', c', rest', heq, hdig, rfl⟩
        exfalso
        apply h
        injection heq with e1 r1
        injection r1 with e2 r2
        injection r2 with e3 r3
        injection r3 with e4 r4
        rw [e1, e2, e3, e4]
        simp [hdig]

theorem filterMap_filter_of_none {α β : Type} (p : α → Bool) (f : α → Option β) (l : List α)
    (h : ∀ a, p a = false → f a = none) :
    (l.filter p).filterMap f = l.filterMap f := by
  induction l with
  | nil => rfl
  | cons x xs ih =>
    by_cases hx : p x = true
    · rw [List.filter_cons_of_pos hx, List.filterMap_cons, List.filterMap_cons, ih]
    · have hx' : p x = false := by
        cases hpx : p x
        · rfl
        · exact absurd hpx hx
      rw [List.filter_cons_of_neg (by simp [hx']), List.filterMap_cons, h x hx', ih]

theorem releases_dfy_map_fst (t : MovieTable) :
    ((t.rows.filter (fun r => r.releaseDate.isSome)).filterMap
      (fun r => (rowYear r).map (fun y => (y, r.genres)))).map Prod.fst =
      t.rows.filterMap rowYear := by
  rw [List.map_filterMap]
  have h1 : (fun r : MovieRow => ((rowYear r).map (fun y => (y, r.genres))).map Prod.fst) =
      (fun r : MovieRow => rowYear r) := by
    funext r
    cases rowYear r <;> rfl
  rw [h1]
  apply filterMap_filter_of_none
  intro r hp
  unfold rowYear
  cases hd : r.releaseDate with
  | none => rfl
  | some s => simp [hd] at hp

theorem releases_none_eq (t : MovieTable) (hr : t.hasReleaseDate = true)
    (hg : t.hasGenres = true) :
    releases t none = .ok (groupCountAsc (t.rows.filterMap rowYear)) := by
  simp only [releases, hr, hg]
  rw [if_neg (show ¬(true = false ∨ true = false) by simp)]
  by_cases he : ((t.rows.filter (fun r => r.releaseDate.isSome)).filterMap
      (fun r => (rowYear r).map (fun y => (y, r.genres)))).isEmpty = true
  · rw [if_pos he]
    have h0 : t.rows.filterMap rowYear = [] := by
      rw [← releases_dfy_map_fst t, List.isEmpty_iff.mp he]
      rfl
    rw [h0]
    rfl
  · rw [if_neg he, releases_dfy_map_fst t]

/-- C6: releases extracts the year of a record as the first window of
four consecutive digits in its release-date text (first and second
conjuncts characterize the extractor), drops records without one, and
counts the rest per year; on the concrete four-record table with years
1999, 1999, 2001 and one unparseable date it returns exactly the rows
(1999, 2) and (2001, 1). -/
theorem c6_releases_per_year :
    (∀ (s : String) (n : Nat), extractYear s = some n ↔
      ∃ i, take4Digits (s.toList.drop i) = some n ∧
        ∀ j < i, take4Digits (s.toList.drop j) = none) ∧
    (∀ (l : List Char) (n : Nat), take4Digits l = some n ↔
      ∃ a b c d rest, l = a :: b :: c :: d :: rest ∧
        (a.isDigit && b.isDigit && c.isDigit && d.isDigit) = true ∧
        n = digitsVal [a, b, c, d]) ∧
    (∀ (t : MovieTable), t.hasReleaseDate = true → t.hasGenres = true →
      ∃ l, releases t none = .ok l ∧
        ∀ y c, (y, c) ∈ l ↔ (y ∈ t.rows.filterMap rowYear ∧
          c = (t.rows.filterMap rowYear).count y)) ∧
    releases tReleases4 none = .ok [(1999, 2), (2001, 1)] := by
  refine ⟨?_, ?_, ?_, by decide⟩
  · intro s n
    exact scanFirst_eq_some rfl
  · intro l n
    exact take4Digits_eq_some
  · intro t hr hg
    exact ⟨_, releases_none_eq t hr hg, fun y c => groupCountAsc_mem⟩

/-- Witness for C6 at the concrete table and one concrete date text. -/
theorem c6_releases_per_year_witness :
    extractYear "1999-05-01" = some 1999 ∧
    (∃ l, releases tReleases4 none = .ok l ∧
      ∀ y c, (y, c) ∈ l ↔ (y ∈ tReleases4.rows.filterMap rowYear ∧
        c = (tReleases4.rows.filterMap rowYear).count y)) :=
  ⟨(c6_releases_per_year.1 "1999-05-01" 1999).mpr
    ⟨0, by decide, fun j hj => absurd hj (Nat.not_lt_zero j)⟩,
   c6_releases_per_year.2.2.1 tReleases4 rfl rfl⟩

theorem ages_year_eq (t : CharTable) (hb : t.hasBirthdate = true) :
    ages t "Y" =
      .ok (groupCountAsc ((t.rows.filterMap CharRow.birthdate).filterMap extractYear)) := by
  simp [ages, hb]

theorem ages_month_eq (t : CharTable) (hb : t.hasBirthdate = true) :
    ages t "M" =
      .ok (groupCountAsc ((t.rows.filterMap CharRow.birthdate).filterMap extractMonth)) := by
  simp [ages, hb]

theorem ages_default_eq (t : CharTable) (g : String) (hb : t.hasBirthdate = true)
    (hg1 : g ≠ "Y") (hg2 : g ≠ "M") : ages t g = ages t "Y" := by
  simp [ages, hb, hg1, hg2]

/-- Counterexample to C8: the birthdate text 1975-05 contains a
two-digit month following a dash, so the claimed rule extracts month 5,
but the code requires a dash on both sides of the digits: the row is
dropped and month-mode bucketing is empty on this table. -/
theorem c8_ages_counterexample :
    extractMonthSpec "1975-05" = some 5 ∧ extractMonth "1975-05" = none ∧
    ages tYearMonth "M" = .ok [] := by decide

/-- C8 amended: ages defaults any grouping mode other than Y and M to
year mode; year mode buckets rows by the first four-digit run of the
birthdate and month mode by the first two digits enclosed between
dashes (not merely following one); rows whose extraction fails are
dropped and the rest are counted per bucket. -/
theorem c8_ages_amended :
    (∀ (t : CharTable) (g : String), t.hasBirthdate = true → g ≠ "Y" → g ≠ "M" →
      ages t g = ages t "Y") ∧
    (∀ (t : CharTable), t.hasBirthdate = true →
      ∃ l, ages t "Y" = .ok l ∧ ∀ k c, (k, c) ∈ l ↔
        (k ∈ (t.rows.filterMap CharRow.birthdate).filterMap extractYear ∧
         c = ((t.rows.filterMap CharRow.birthdate).filterMap extractYear).count k)) ∧
    (∀ (t : CharTable), t.hasBirthdate = true →
      ∃ l, ages t "M" = .ok l ∧ ∀ k c, (k, c) ∈ l ↔
        (k ∈ (t.rows.filterMap CharRow.birthdate).filterMap extractMonth ∧
         c = ((t.rows.filterMap CharRow.birthdate).filterMap extractMonth).count k)) ∧
    (∀ (s : String) (m : Nat), extractMonth s = some m ↔
      ∃ i, dashMonth (s.toList.drop i) = some m ∧
        ∀ j < i, dashMonth (s.toList.drop j) = none) ∧
    (∀ (l : List Char) (m : Nat), dashMonth l = some m ↔
      ∃ b c rest, l = '-' :: b :: c :: '-' :: rest ∧ (b.isDigit && c.isDigit) = true ∧
        m = digitsVal [b, c]) := by
  refine ⟨?_, ?_, ?_, ?_, ?_⟩
  · intro t g hb hg1 hg2
    exact ages_default_eq t g hb hg1 hg2
  · intro t hb
    exact ⟨_, ages_year_eq t hb, fun k c => groupCountAsc_mem⟩
  · intro t hb
    exact ⟨_, ages_month_eq t hb, fun k c => groupCountAsc_mem⟩
  · intro s m
    exact scanFirst_eq_some rfl
  · intro l m
    exact dashMonth_eq_some

/-- Witness for C8 amended: an unknown mode defaults to year mode, and
a full date has its month extracted between the dashes. -/
theorem c8_ages_amended_witness :
    ages tTwoActors "Q" = ages tTwoActors "Y" ∧
    extractMonth "1980-12-31" = some 12 :=
  ⟨c8_ages_amended.1 tTwoActors "Q" rfl (by decide) (by decide),
   (c8_ages_amended.2.2.2.1 "1980-12-31" 12).mpr ⟨4, by decide, by decide⟩⟩

theorem filterE_ok {α : Type} (f : α → Except PyErr Bool) (g : α → Bool) (l : List α)
    (h : ∀ x ∈ l, f x = .ok (g x)) : filterE f l = .ok (l.filter g) := by
  induction l with
  | nil => rfl
  | cons x xs ih =>
    simp only [filterE]
    rw [h x (by simp), ih (fun y hy => h y (by simp [hy]))]
    by_cases hx : g x = true
    · simp [List.filter_cons, hx]
    · simp [List.filter_cons, hx]

theorem genre_filter_eq_ok {g : String} {c : Option GenreCell}
    (h : ∀ s, c = some (.str s) → pyLiteralEval s ≠ some PyLit.nonDict) :
    genre_filter g c = .ok (genreMatches g c) := by
  match c with
  | none => rfl
  | some (.dict d) => rfl
  | some (.str s) =>
    cases hp : pyLiteralEval s with
    | none => simp [genre_filter, genreMatches, hp]
    | some lit =>
      cases lit with
      | dict d => simp [genre_filter, genreMatches, hp]
      | nonDict => exact absurd hp (h s rfl)

theorem dfy_filter_genre (rows : List MovieRow) (g : String) :
    (((rows.filter (fun r => r.releaseDate.isSome)).filterMap
        (fun r => (rowYear r).map (fun y => (y, r.genres)))).filter
      (fun p => genreMatches g p.2)).map Prod.fst =
    (rows.filter (fun r => genreMatches g r.genres)).filterMap rowYear := by
  induction rows with
  | nil => rfl
  | cons r rs ih =>
    by_cases hd : r.releaseDate.isSome = true
    · cases hy : rowYear r with
      | none =>
        by_cases hm : genreMatches g r.genres = true
        · simp [List.filter_cons, hd, hy, hm, List.filterMap_cons, ih]
        · simp [List.filter_cons, hd, hy, hm, List.filterMap_cons, ih]
      | some y =>
        by_cases hm : genreMatches g r.genres = true
        · simp [List.filter_cons, hd, hy, hm, List.filterMap_cons, ih]
        · simp [List.filter_cons, hd, hy, hm, List.filterMap_cons, ih]
    · have hy : rowYear r = none := by
        unfold rowYear
        cases hde : r.releaseDate
        · rfl
        · simp [hde] at hd
      by_cases hm : genreMatches g r.genres = true
      · simp [List.filter_cons, hd, hy, hm, List.filterMap_cons, ih]
      · simp [List.filter_cons, hd, hy, hm, List.filterMap_cons, ih]

theorem releases_filter_eq (t : MovieTable) (g : String) (hr : t.hasReleaseDate = true)
    (hg : t.hasGenres = true) (hne : g ≠ "")
    (hp : ∀ r ∈ t.rows, ∀ s, r.genres = some (.str s) → pyLiteralEval s ≠ some PyLit.nonDict) :
    releases t (some g) = .ok (groupCountAsc
      ((t.rows.filter (fun r => genreMatches g r.genres)).filterMap rowYear)) := by
  have hall : ∀ p ∈ (t.rows.filter (fun r => r.releaseDate.isSome)).filterMap
      (fun r => (rowYear r).map (fun y => (y, r.genres))),
      genre_filter g p.2 = .ok (genreMatches g p.2) := by
    intro p hpmem
    rw [List.mem_filterMap] at hpmem
    obtain ⟨r, hr1, hr2⟩ := hpmem
    have hrmem : r ∈ t.rows := List.mem_of_mem_filter hr1
    cases hyy : rowYear r with
    | none =>
      rw [hyy] at hr2
      exact absurd hr2 (by simp)
    | some y =>
      rw [hyy] at hr2
      simp only [Option.map_some'] at hr2
      injection hr2 with hr2'
      rw [← hr2']
      exact genre_filter_eq_ok (fun s hs => hp r hrmem s hs)
  simp only [releases, hr, hg]
  rw [if_neg (show ¬(true = false ∨ true = false) by simp)]
  rw [if_neg hne]
  rw [filterE_ok _ (fun p => genreMatches g p.2) _ hall]
  simp only []
  by_cases he : (((t.rows.filter (fun r => r.releaseDate.isSome)).filterMap
      (fun r => (rowYear r).map (fun y => (y, r.genres)))).filter
    (fun p => genreMatches g p.2)).isEmpty = true
  · rw [if_pos he]
    have h0 : (t.rows.filter (fun r => genreMatches g r.genres)).filterMap rowYear = [] := by
      rw [← dfy_filter_genre t.rows g, List.isEmpty_iff.mp he]
      rfl
    rw [h0]
    rfl
  · rw [if_neg he, dfy_filter_genre t.rows g]

/-- Counterexample to C7: a record whose Genres cell is already a
mapping containing Drama — a value the Genre Codec contract accepts and
decodes to a list containing Drama — is nevertheless excluded by the
genre filter of releases, which passes the raw cell to
ast.literal_eval (ValueError on a non-string, caught as False). -/
theorem c7_releases_filter_counterexample :
    extractGenreValues (.dict [("/m/x", "Drama")]) = .ok ["Drama"] ∧
    releases tDictGenre (some "Drama") = .ok [] := by
  constructor
  · decide
  · decide

/-- C7 amended: for a non-empty requested genre name, on tables where
no genre cell is a string encoding a non-mapping literal (those raise
an uncaught AttributeError), releases keeps exactly the records whose
cell is a string encoding a mapping whose values contain the name — a
cell that is already a mapping is excluded, not accepted — then counts
the surviving records per year, and an empty remainder yields an empty
table rather than an error. -/
theorem c7_releases_genre_filter :
    (∀ (t : MovieTable) (g : String), t.hasReleaseDate = true → t.hasGenres = true →
      g ≠ "" →
      (∀ r ∈ t.rows, ∀ s, r.genres = some (.str s) → pyLiteralEval s ≠ some PyLit.nonDict) →
      ∃ l, releases t (some g) = .ok l ∧
        (∀ y c, (y, c) ∈ l ↔
          (y ∈ (t.rows.filter (fun r => genreMatches g r.genres)).filterMap rowYear ∧
           c = ((t.rows.filter (fun r => genreMatches g r.genres)).filterMap rowYear).count y)) ∧
        ((t.rows.filter (fun r => genreMatches g r.genres)).filterMap rowYear = [] →
          l = [])) ∧
    (∀ (g s : String) (d : List (String × String)), pyLiteralEval s = some (.dict d) →
      (genreMatches g (some (.str s)) = true ↔ g ∈ d.map Prod.snd)) ∧
    (∀ (g : String) (d : List (String × String)), genreMatches g (some (.dict d)) = false) := by
  refine ⟨?_, ?_, ?_⟩
  · intro t g hr hg hne hp
    refine ⟨_, releases_filter_eq t g hr hg hne hp, fun y c => groupCountAsc_mem, ?_⟩
    intro h0
    rw [h0]
    rfl
  · intro g s d hps
    simp [genreMatches, hps]
  · intro g d
    rfl

/-- Witness for C7 amended at a one-row table whose cell is a string
encoding a Drama mapping. -/
theorem c7_releases_genre_filter_witness :
    (∃ l, releases tStrGenre (some "Drama") = .ok l ∧
      (∀ y c, (y, c) ∈ l ↔
        (y ∈ (tStrGenre.rows.filter (fun r => genreMatches "Drama" r.genres)).filterMap
            rowYear ∧
         c = ((tStrGenre.rows.filter
            (fun r => genreMatches "Drama" r.genres)).filterMap rowYear).count y)) ∧
      ((tStrGenre.rows.filter (fun r => genreMatches "Drama" r.genres)).filterMap rowYear =
          [] → l = [])) ∧
    genreMatches "Drama" (some (.dict [("/m/x", "Drama")])) = false :=
  ⟨c7_releases_genre_filter.1 tStrGenre "Drama" rfl rfl (by decide)
    (by
      intro r hrm s hs hnd
      simp only [tStrGenre] at hrm
      rcases List.mem_cons.mp hrm with rfl | h0
      · simp only [] at hs
        injection hs with hs'
        injection hs' with hs''
        rw [← hs''] at hnd
        exact absurd hnd (by decide)
      · exact absurd h0 (by simp)),
   c7_releases_genre_filter.2.2 "Drama" [("/m/x", "Drama")]⟩

theorem heightRows_mem {t : CharTable} {p : CharRow × ℚ} :
    p ∈ heightRows t ↔
      (p.1 ∈ t.rows ∧ ∃ s, p.1.height = some s ∧ parseHeight s = some p.2) := by
  unfold heightRows
  rw [List.mem_filterMap]
  constructor
  · rintro ⟨r, hr, hre⟩
    cases hrh : rowHeight r with
    | none =>
      rw [hrh] at hre
      exact absurd hre (by simp)
    | some q =>
      rw [hrh] at hre
      simp only [Option.map_some'] at hre
      cases hre
      unfold rowHeight at hrh
      cases hhs : r.height with
      | none =>
        rw [hhs] at hrh
        exact absurd hrh (by simp)
      | some s =>
        rw [hhs] at hrh
        simp only [Option.some_bind] at hrh
        exact ⟨hr, s, rfl, hrh⟩
  · rintro ⟨hr, s, hhs, hph⟩
    refine ⟨p.1, hr, ?_⟩
    unfold rowHeight
    rw [hhs]
    simp [hph]

theorem availableGenders_subset (t : CharTable) :
    ∀ s ∈ availableGenders t, s ∈ observedGenders t := by
  intro s hs
  unfold availableGenders at hs
  unfold observedGenders
  rw [mem_firstOccurs] at hs ⊢
  rw [List.mem_filterMap] at hs ⊢
  obtain ⟨p, hp, hpe⟩ := hs
  exact ⟨p.1, (heightRows_mem.mp hp).1, hpe⟩

theorem okEmptyPairs (l : List (CharRow × ℚ)) :
    (if l.isEmpty = true then (Except.ok [] : Except PyErr (List (ℚ × Nat)))
     else .ok (groupCountAsc (l.map Prod.snd))) = .ok (groupCountAsc (l.map Prod.snd)) := by
  by_cases he : l.isEmpty = true
  · rw [if_pos he, List.isEmpty_iff.mp he]
    rfl
  · rw [if_neg he]

theorem actor_distributions_nonnum (t : CharTable) (gv mx mn : PyVal)
    (hg : t.hasGender = true) (hh : t.hasHeight = true)
    (hnum : isNumeric mn = false ∨ isNumeric mx = false) :
    actor_distributions t gv mx mn = .error (.valueError msgHeightsNumeric) := by
  simp only [actor_distributions, hg, hh]
  rw [if_neg (show ¬(true = false ∨ true = false) by simp), if_pos hnum]

theorem actor_distributions_minmax (t : CharTable) (gv mx mn : PyVal)
    (hg : t.hasGender = true) (hh : t.hasHeight = true)
    (hmn : isNumeric mn = true) (hmx : isNumeric mx = true)
    (hge : pyToRat mx ≤ pyToRat mn) :
    actor_distributions t gv mx mn = .error (.valueError msgMinMax) := by
  simp only [actor_distributions, hg, hh]
  rw [if_neg (show ¬(true = false ∨ true = false) by simp),
    if_neg (show ¬(isNumeric mn = false ∨ isNumeric mx = false) by simp [hmn, hmx]),
    if_pos hge]

theorem actor_distributions_badgender (t : CharTable) (gv mx mn : PyVal)
    (hg : t.hasGender = true) (hh : t.hasHeight = true)
    (hmn : isNumeric mn = true) (hmx : isNumeric mx = true)
    (hlt : pyToRat mn < pyToRat mx)
    (hbad1 : gv ≠ PyVal.str "All")
    (hbad2 : ∀ s, gv = PyVal.str s → s ∉ availableGenders t) :
    actor_distributions t gv mx mn =
      .error (.valueError (genderErrMsg (availableGenders t))) := by
  simp only [actor_distributions, hg, hh]
  rw [if_neg (show ¬(true = false ∨ true = false) by simp),
    if_neg (show ¬(isNumeric mn = false ∨ isNumeric mx = false) by simp [hmn, hmx]),
    if_neg (not_le.mpr hlt)]
  rw [if_pos ?hc]
  case hc =>
    refine ⟨hbad1, ?_⟩
    match gv with
    | .int n => rfl
    | .float q => rfl
    | .pynone => rfl
    | .str s =>
      have hnin := hbad2 s rfl
      cases hcon : (availableGenders t).contains s
      · simp only []
        exact hcon
      · exact absurd (by simpa using hcon) hnin

theorem actor_distributions_ok (t : CharTable) (gv mx mn : PyVal)
    (hg : t.hasGender = true) (hh : t.hasHeight = true)
    (hmn : isNumeric mn = true) (hmx : isNumeric mx = true)
    (hlt : pyToRat mn < pyToRat mx)
    (hok : gv = PyVal.str "All" ∨ ∃ s, gv = PyVal.str s ∧ s ∈ availableGenders t) :
    actor_distributions t gv mx mn =
      .ok (groupCountAsc (selectedHeights t gv (pyToRat mn) (pyToRat mx))) := by
  simp only [actor_distributions, hg, hh]
  rw [if_neg (show ¬(true = false ∨ true = false) by simp),
    if_neg (show ¬(isNumeric mn = false ∨ isNumeric mx = false) by simp [hmn, hmx]),
    if_neg (not_le.mpr hlt)]
  rw [if_neg ?hc]
  case hc =>
    rintro ⟨hne, hfalse⟩
    rcases hok with rfl | ⟨s, rfl, hsin⟩
    · exact hne rfl
    · have : (availableGenders t).contains s = true := by simpa using hsin
      rw [show (match PyVal.str s with
          | PyVal.str s => (availableGenders t).contains s
          | _ => false) = (availableGenders t).contains s from rfl] at hfalse
      rw [this] at hfalse
      exact Bool.true_eq_false ▸ hfalse
  rw [okEmptyPairs]
  rfl

theorem selectedHeights_mem (t : CharTable) (gv : PyVal) (mn mx : ℚ) (h : ℚ) :
    h ∈ selectedHeights t gv mn mx ↔
      ∃ r ∈ t.rows, (∃ s, r.height = some s ∧ parseHeight s = some h) ∧
        (mn ≤ h ∧ h ≤ mx) ∧
        (gv = PyVal.str "All" ∨ ∃ sg, r.gender = some sg ∧ genderSelects gv sg = true) := by
  unfold selectedHeights
  rw [List.mem_map]
  constructor
  · rintro ⟨p, hp, rfl⟩
    rw [List.mem_filter] at hp
    obtain ⟨hp1, hp2⟩ := hp
    have hrange : mn ≤ p.2 ∧ p.2 ≤ mx := by simpa using hp2
    unfold genderFilteredRows at hp1
    by_cases hall : gv = PyVal.str "All"
    · rw [if_pos hall] at hp1
      obtain ⟨hr, s, hs, hph⟩ := heightRows_mem.mp hp1
      exact ⟨p.1, hr, ⟨s, hs, hph⟩, hrange, Or.inl hall⟩
    · rw [if_neg hall] at hp1
      rw [List.mem_filter] at hp1
      obtain ⟨hp1, hgsel⟩ := hp1
      obtain ⟨hr, s, hs, hph⟩ := heightRows_mem.mp hp1
      refine ⟨p.1, hr, ⟨s, hs, hph⟩, hrange, Or.inr ?_⟩
      cases hsg : p.1.gender with
      | none =>
        rw [hsg] at hgsel
        exact absurd hgsel (by simp)
      | some sg =>
        rw [hsg] at hgsel
        exact ⟨sg, rfl, hgsel⟩
  · rintro ⟨r, hr, ⟨s, hhs, hph⟩, hrange, hgen⟩
    refine ⟨(r, h), ?_, rfl⟩
    rw [List.mem_filter]
    have hhr : (r, h) ∈ heightRows t := heightRows_mem.mpr ⟨hr, s, hhs, hph⟩
    refine ⟨?_, by simpa using hrange⟩
    unfold genderFilteredRows
    by_cases hall : gv = PyVal.str "All"
    · rw [if_pos hall]
      exact hhr
    · rw [if_neg hall]
      rw [List.mem_filter]
      refine ⟨hhr, ?_⟩
      rcases hgen with hgen | ⟨sg, hsg, hsel⟩
      · exact absurd hgen hall
      · have hfst : (r, h).1.gender = some sg := hsg
        rw [hfst]
        exact hsel

/-- C4: within a character table having the gender and height columns,
actor_distributions raises an invalid-argument ValueError whenever the
gender argument is not a string, whenever it is a string other than All
that is not among the observed non-null gender values (and then the
message names the available gender set), whenever a height bound is
non-numeric, and whenever the minimum is not below the maximum. -/
theorem c4_actor_distributions_validation :
    ∀ (t : CharTable) (gv mx mn : PyVal), t.hasGender = true → t.hasHeight = true →
      (((∀ s, gv ≠ PyVal.str s) →
          ∃ m, actor_distributions t gv mx mn = .error (.valueError m)) ∧
       (∀ s, gv = PyVal.str s → s ≠ "All" → s ∉ observedGenders t →
         isNumeric mn = true → isNumeric mx = true → pyToRat mn < pyToRat mx →
         actor_distributions t gv mx mn =
           .error (.valueError (genderErrMsg (availableGenders t)))) ∧
       ((isNumeric mn = false ∨ isNumeric mx = false) →
         actor_distributions t gv mx mn = .error (.valueError msgHeightsNumeric)) ∧
       (isNumeric mn = true → isNumeric mx = true → pyToRat mx ≤ pyToRat mn →
         actor_distributions t gv mx mn = .error (.valueError msgMinMax))) := by
  intro t gv mx mn hg hh
  refine ⟨?_, ?_, ?_, ?_⟩
  · intro hns
    by_cases hmn : isNumeric mn = true
    · by_cases hmx : isNumeric mx = true
      · by_cases hge : pyToRat mx ≤ pyToRat mn
        · exact ⟨_, actor_distributions_minmax t gv mx mn hg hh hmn hmx hge⟩
        · refine ⟨_, actor_distributions_badgender t gv mx mn hg hh hmn hmx
            (not_le.mp hge) (hns "All") ?_⟩
          intro s hs
          exact absurd hs (hns s)
      · exact ⟨_, actor_distributions_nonnum t gv mx mn hg hh (Or.inr (by simpa using hmx))⟩
    · exact ⟨_, actor_distributions_nonnum t gv mx mn hg hh (Or.inl (by simpa using hmn))⟩
  · intro s hgv hsAll hsObs hmn hmx hlt
    subst hgv
    refine actor_distributions_badgender t _ mx mn hg hh hmn hmx hlt ?_ ?_
    · intro hEq
      injection hEq with h'
      exact hsAll h'
    · intro s' hs'
      injection hs' with h'
      subst h'
      intro hin
      exact hsObs (availableGenders_subset t _ hin)
  · exact actor_distributions_nonnum t gv mx mn hg hh
  · exact actor_distributions_minmax t gv mx mn hg hh

/-- Witness for C4 at the two-row table: an int gender, an unknown
string gender, a string height bound, and inverted bounds. -/
theorem c4_actor_distributions_validation_witness :
    (∃ m, actor_distributions tTwoActors (.int 5) (.float 2) (.float 1) =
      .error (.valueError m)) ∧
    actor_distributions tTwoActors (.str "X") (.float 2) (.float 1) =
      .error (.valueError (genderErrMsg (availableGenders tTwoActors))) ∧
    actor_distributions tTwoActors (.str "All") (.float 2) (.str "a") =
      .error (.valueError msgHeightsNumeric) ∧
    actor_distributions tTwoActors (.str "All") (.float 1) (.float 2) =
      .error (.valueError msgMinMax) := by
  refine ⟨?_, ?_, ?_, ?_⟩
  · exact (c4_actor_distributions_validation tTwoActors (.int 5) (.float 2) (.float 1)
      rfl rfl).1 (fun s h => PyVal.noConfusion h)
  · exact (c4_actor_distributions_validation tTwoActors (.str "X") (.float 2) (.float 1)
      rfl rfl).2.1 "X" rfl (by decide) (by decide) rfl rfl (by decide)
  · exact (c4_actor_distributions_validation tTwoActors (.str "All") (.float 2) (.str "a")
      rfl rfl).2.2.1 (Or.inl rfl)
  · exact (c4_actor_distributions_validation tTwoActors (.str "All") (.float 1) (.float 2)
      rfl rfl).2.2.2 rfl rfl (by decide)

/-- Counterexample to C5: with the sentinel All the code does not
restrict the count to rows with non-null gender — a table whose only
row has a null gender and height text 1.75 yields that height with
count one, where the claim requires such rows to be excluded. -/
theorem c5_actor_distributions_counterexample :
    (∀ r ∈ tNullGender.rows, r.gender = none) ∧
    actor_distributions tNullGender (.str "All") (.float 2) (.float 1) =
      .ok [(mkRat 7 4, 1)] := by
  constructor
  · decide
  · decide

/-- C5 amended: for valid bounds and a valid gender selector, every row
of the returned histogram lies in the inclusive range; the rows are
exactly the distinct heights (with their counts) of the records that
survive height cleaning (non-numeric height text excluded before range
filtering), gender selection — a specific gender counts only rows of
that gender, while All imposes no gender restriction at all, null
genders included — and the inclusive range filter; and when nothing
survives the result is an empty table, not an error. -/
theorem c5_actor_distributions_range :
    ∀ (t : CharTable) (gv mx mn : PyVal), t.hasGender = true → t.hasHeight = true →
      isNumeric mn = true → isNumeric mx = true → pyToRat mn < pyToRat mx →
      (gv = PyVal.str "All" ∨ ∃ s, gv = PyVal.str s ∧ s ∈ availableGenders t) →
      ∃ l, actor_distributions t gv mx mn = .ok l ∧
        (∀ p ∈ l, pyToRat mn ≤ p.1 ∧ p.1 ≤ pyToRat mx) ∧
        (∀ y c, (y, c) ∈ l ↔ (y ∈ selectedHeights t gv (pyToRat mn) (pyToRat mx) ∧
          c = (selectedHeights t gv (pyToRat mn) (pyToRat mx)).count y)) ∧
        (selectedHeights t gv (pyToRat mn) (pyToRat mx) = [] → l = []) ∧
        (∀ h, h ∈ selectedHeights t gv (pyToRat mn) (pyToRat mx) ↔
          ∃ r ∈ t.rows, (∃ s, r.height = some s ∧ parseHeight s = some h) ∧
            (pyToRat mn ≤ h ∧ h ≤ pyToRat mx) ∧
            (gv = PyVal.str "All" ∨ ∃ sg, r.gender = some sg ∧
              genderSelects gv sg = true)) := by
  intro t gv mx mn hg hh hmn hmx hlt hok
  refine ⟨_, actor_distributions_ok t gv mx mn hg hh hmn hmx hlt hok, ?_, ?_, ?_, ?_⟩
  · intro p hp
    have h2 := groupCountAsc_mem.mp (show (p.1, p.2) ∈ _ from hp)
    obtain ⟨r, _, _, hrange, _⟩ := (selectedHeights_mem t gv _ _ p.1).mp h2.1
    exact hrange
  · intro y c
    exact groupCountAsc_mem
  · intro h0
    rw [h0]
    rfl
  · intro h
    exact selectedHeights_mem t gv _ _ h

/-- Witness for C5 at the two-row table with gender F and bounds one
and two. -/
theorem c5_actor_distributions_range_witness :
    ∃ l, actor_distributions tTwoActors (.str "F") (.float 2) (.float 1) = .ok l ∧
      ∀ p ∈ l, pyToRat (.float 1) ≤ p.1 ∧ p.1 ≤ pyToRat (.float 2) := by
  obtain ⟨l, h1, h2, _⟩ := c5_actor_distributions_range tTwoActors (.str "F") (.float 2)
    (.float 1) rfl rfl rfl rfl (by decide) (Or.inr ⟨"F", rfl, by decide⟩)
  exact ⟨l, h1, h2⟩
